import Mathlib

/-!
Verification of the player-ranking and statistics aggregation of the
smash-leaderboard-frontend repository.

The repository contains two generations of the `/api/players` handler:
an analytical SQL query built from common table expressions (the
`one_v_one_matches`, `main_chars`, `player_stats`, `win_streaks` CTEs),
and an in-memory TypeScript transformation (`top10PlayerIds`,
`mainCharacter`, `oneVOneParticipants`, `uniqueTop10Opponents` in
`src/app/api/players/route.ts`).  Both are embedded below, together with
the `/api/matches` listing handler and the `/api/revalidate` handler.
-/

namespace Smash

/-- A row of the `players` table: `id`, `elo` rating, the stored
`is_ranked` flag and the stored `top_10_players_played` counter. -/
structure Player where
  id : Nat
  elo : Int
  is_ranked : Bool
  top_ten_played : Nat
  deriving DecidableEq, Repr

/-- A row of the `matches` table: `id`, `created_at` (modelled as an
integer timestamp) and the `archived` flag. -/
structure MatchRow where
  id : Nat
  createdAt : Int
  archived : Bool
  deriving DecidableEq, Repr

/-- A row of the `match_participants` table. -/
structure ParticipantRow where
  id : Nat
  match_id : Nat
  player : Nat
  smash_character : String
  is_cpu : Bool
  total_kos : Int
  total_falls : Int
  total_sds : Int
  has_won : Bool
  deriving DecidableEq, Repr

/-- A snapshot of the data store: all players, matches and participant
rows. -/
structure Snapshot where
  players : List Player
  matchRows : List MatchRow  -- the `matches` table (`matches` is reserved in Lean)
  participants : List ParticipantRow
  deriving Repr

/-! ## Generic stable insertion sort (Bool-valued comparator)

Used to embed the various `ORDER BY` / `orderBy` clauses. -/

/-- Insert `a` into `l`, before the first element `b` with `le a b`. -/
def insertLe {α : Type} (le : α → α → Bool) (a : α) : List α → List α
  | [] => [a]
  | b :: t => if le a b then a :: b :: t else b :: insertLe le a t

/-- Stable insertion sort by the Bool-valued comparator `le`. -/
def sortLe {α : Type} (le : α → α → Bool) : List α → List α
  | [] => []
  | a :: t => insertLe le a (sortLe le t)

/-! ## The SQL implementation (`WITH ... one_v_one_matches AS ...`)

Embeds the common-table-expression query of the players endpoint
(`part_002` / `part_003`): eligibility filter, per-player aggregates,
main-character mode and win streak. -/

/-- Number of participant rows of match `mid` with `is_cpu = false`
(the `COUNT(*)` grouped by match over `mp.is_cpu = false` rows). -/
def nonCpuCount (s : Snapshot) (mid : Nat) : Nat :=
  (s.participants.filter (fun p => p.match_id == mid && !p.is_cpu)).length

/-- The `one_v_one_matches` CTE: ids of matches with `archived = false`
and exactly two non-CPU participants. -/
def one_v_one_matches (s : Snapshot) : List Nat :=
  (s.matchRows.filter (fun m => !m.archived && nonCpuCount s m.id == 2)).map (fun m => m.id)

/-- The participant rows of player `pid` that enter the SQL aggregates:
`is_cpu = false` rows joined against `one_v_one_matches`. -/
def eligRows (s : Snapshot) (pid : Nat) : List ParticipantRow :=
  s.participants.filter
    (fun p => p.player == pid && !p.is_cpu && (one_v_one_matches s).contains p.match_id)

/-- Occurrence count of character `c` within a list of participant rows
(the `COUNT(*)` grouped by `(player, smash_character)`). -/
def charCount (rows : List ParticipantRow) (c : String) : Nat :=
  (rows.filter (fun p => p.smash_character == c)).length

/-- Comparison used by `ROW_NUMBER() OVER (... ORDER BY COUNT(*) DESC,
mp.smash_character)`: `c` beats `b` when its count is larger, or when the
counts tie and `c` is lexicographically smaller. -/
def betterChar (f : String → Nat) (c b : String) : Bool :=
  f b < f c || (f c == f b && decide (c < b))

/-- Select the `rn = 1` character: the element maximal for `betterChar`. -/
def pickBest (f : String → Nat) (l : List String) : Option String :=
  l.foldl
    (fun acc c =>
      match acc with
      | none => some c
      | some b => if betterChar f c b then some c else some b) none

/-- The `main_chars` CTE joined at `rn = 1`: highest-count character of
the player's eligible rows, ties broken by lexicographically smallest. -/
def main_character_sql (s : Snapshot) (pid : Nat) : Option String :=
  pickBest (charCount (eligRows s pid)) ((eligRows s pid).map (fun p => p.smash_character))

/-- `player_stats` CTE: `COUNT(*) FILTER (WHERE mp.has_won = true)`. -/
def total_wins_sql (s : Snapshot) (pid : Nat) : Nat :=
  ((eligRows s pid).filter (fun p => p.has_won)).length

/-- `player_stats` CTE: `COUNT(*) FILTER (WHERE mp.has_won = false)`. -/
def total_losses_sql (s : Snapshot) (pid : Nat) : Nat :=
  ((eligRows s pid).filter (fun p => !p.has_won)).length

/-- `player_stats` CTE: `COALESCE(SUM(mp.total_kos), 0)`. -/
def total_kos_sql (s : Snapshot) (pid : Nat) : Int :=
  ((eligRows s pid).map (fun p => p.total_kos)).sum

/-- `player_stats` CTE: `COALESCE(SUM(mp.total_falls), 0)`. -/
def total_falls_sql (s : Snapshot) (pid : Nat) : Int :=
  ((eligRows s pid).map (fun p => p.total_falls)).sum

/-- `player_stats` CTE: `COALESCE(SUM(mp.total_sds), 0)`. -/
def total_sds_sql (s : Snapshot) (pid : Nat) : Int :=
  ((eligRows s pid).map (fun p => p.total_sds)).sum

/-- `created_at` of the match with id `mid` (the `JOIN matches m ON
mp.match_id = m.id`; eligible rows always have a matching match). -/
def matchCreatedAt (s : Snapshot) (mid : Nat) : Int :=
  match s.matchRows.find? (fun m => m.id == mid) with
  | some m => m.createdAt
  | none => 0

/-- Comparator of the `ordered_player_matches` CTE
(`ORDER BY m.created_at DESC, m.id DESC`): `a` comes no later than `b`
when `a`'s key (created_at, match id) is lexicographically at least
`b`'s. -/
def recencyLe (s : Snapshot) (a b : ParticipantRow) : Bool :=
  decide (matchCreatedAt s b.match_id < matchCreatedAt s a.match_id) ||
    (matchCreatedAt s b.match_id == matchCreatedAt s a.match_id &&
      b.match_id ≤ a.match_id)

/-- The player's eligible rows in the `ordered_player_matches` order:
match creation time descending, ties by match id descending. -/
def sortedEligRows (s : Snapshot) (pid : Nat) : List ParticipantRow :=
  sortLe (recencyLe s) (eligRows s pid)

/-- Zero-based position of the first `has_won = false` row, i.e. the
`MIN(match_order)` of the `first_losses` CTE. -/
def firstLossIdx : List ParticipantRow → Option Nat
  | [] => none
  | r :: t => if r.has_won then (firstLossIdx t).map (· + 1) else some 0

/-- The `win_streaks` CTE: count the `has_won = true` rows that precede
the first loss in the recency order (all wins when no loss exists). -/
def win_streak_sql (s : Snapshot) (pid : Nat) : Nat :=
  let l := sortedEligRows s pid
  match firstLossIdx l with
  | some i => ((l.take i).filter (fun r => r.has_won)).length
  | none => (l.filter (fun r => r.has_won)).length

/-- Follows the spec's words for the win streak (claim C2): the length of
the longest prefix of `has_won = true` rows when the player's eligible
rows are ordered by match creation time descending, ties by match id
descending. -/
def spec_win_streak (s : Snapshot) (pid : Nat) : Nat :=
  ((sortedEligRows s pid).takeWhile (fun r => r.has_won)).length

/-! ## The in-memory implementation (`src/app/api/players/route.ts`)

`prisma.players.findMany` returns players ordered by `elo` descending,
each with its `is_cpu = false` participant rows ordered by `match_id`
descending, and for each row the match together with the match's
`is_cpu = false` participant rows.  The transformation then computes the
per-player fields. -/

/-- Players in the order returned by the query (`orderBy: elo desc`). -/
def playersSorted (s : Snapshot) : List Player :=
  sortLe (fun a b => decide (b.elo ≤ a.elo)) s.players

/-- `top10PlayerIds`: the elo-ordered player list filtered by the stored
`is_ranked` flag, sliced to the first 10, mapped to ids. -/
def top10PlayerIds (s : Snapshot) : List Nat :=
  (((playersSorted s).filter (fun p => p.is_ranked)).take 10).map (fun p => p.id)

/-- `player.match_participants`: the non-CPU rows of player `pid`,
ordered by `match_id` descending. -/
def playerRows (s : Snapshot) (pid : Nat) : List ParticipantRow :=
  sortLe (fun a b => b.match_id ≤ a.match_id)
    (s.participants.filter (fun p => p.player == pid && !p.is_cpu))

/-- Truthiness of `participant.match`: the match record exists. -/
def matchExistsB (s : Snapshot) (mid : Nat) : Bool :=
  (s.matchRows.find? (fun m => m.id == mid)).isSome

/-- The filter of `oneVOneParticipants`: `p.match &&
p.match.match_participants.length === 2` (the included participants are
the non-CPU ones).  The archived flag is not consulted. -/
def is1v1Row (s : Snapshot) (r : ParticipantRow) : Bool :=
  matchExistsB s r.match_id && nonCpuCount s r.match_id == 2

/-- `oneVOneParticipants`: the player's rows whose match has exactly two
non-CPU participants. -/
def oneVOneRows (s : Snapshot) (pid : Nat) : List ParticipantRow :=
  (playerRows s pid).filter (fun r => is1v1Row s r)

/-- The `current_win_streak` loop: walk the rows in order, incrementing
on `has_won` and stopping at the first loss. -/
def countStreak : List ParticipantRow → Nat
  | [] => 0
  | r :: t => if r.has_won then countStreak t + 1 else 0

/-- `stats.current_win_streak` of the in-memory implementation. -/
def route_win_streak (s : Snapshot) (pid : Nat) : Nat :=
  countStreak (oneVOneRows s pid)

/-- `stats.total_wins` of the in-memory implementation. -/
def route_total_wins (s : Snapshot) (pid : Nat) : Nat :=
  ((oneVOneRows s pid).filter (fun p => p.has_won)).length

/-- `stats.total_losses` of the in-memory implementation. -/
def route_total_losses (s : Snapshot) (pid : Nat) : Nat :=
  ((oneVOneRows s pid).filter (fun p => !p.has_won)).length

/-- `stats.total_kos` of the in-memory implementation. -/
def route_total_kos (s : Snapshot) (pid : Nat) : Int :=
  ((oneVOneRows s pid).map (fun p => p.total_kos)).sum

/-- `stats.total_falls` of the in-memory implementation. -/
def route_total_falls (s : Snapshot) (pid : Nat) : Int :=
  ((oneVOneRows s pid).map (fun p => p.total_falls)).sum

/-- `stats.total_sds` of the in-memory implementation. -/
def route_total_sds (s : Snapshot) (pid : Nat) : Int :=
  ((oneVOneRows s pid).map (fun p => p.total_sds)).sum

/-- Keys of the `characterCounts` record in insertion order: the distinct
characters of the rows, ordered by first occurrence. -/
def firstOccChars (rows : List ParticipantRow) : List String :=
  rows.foldl
    (fun acc r => if acc.contains r.smash_character then acc else acc ++ [r.smash_character]) []

/-- The largest character count of the rows. -/
def maxCharCount (rows : List ParticipantRow) : Nat :=
  ((firstOccChars rows).map (charCount rows)).foldl max 0

/-- `mainCharacter` of the in-memory implementation:
`Object.entries(characterCounts).sort(([,a],[,b]) => b - a)[0]` over ALL
of the player's non-CPU rows.  `Array.prototype.sort` is stable, so the
head is the first-inserted key among those with maximal count, i.e. the
character of maximal count whose first occurrence (in `match_id`
descending row order) is earliest. -/
def route_main_character (s : Snapshot) (pid : Nat) : Option String :=
  let rows := playerRows s pid
  (firstOccChars rows).find? (fun c => charCount rows c == maxCharCount rows)

/-- The non-CPU participant rows included under a match
(`match_participants: { where: { is_cpu: false } }`). -/
def nonCpuRowsOfMatch (s : Snapshot) (mid : Nat) : List ParticipantRow :=
  s.participants.filter (fun x => x.match_id == mid && !x.is_cpu)

/-- `participant.match.match_participants.find(mp => mp.player !==
player.id && !mp.is_cpu)`. -/
def oppOf (s : Snapshot) (pid : Nat) (r : ParticipantRow) : Option ParticipantRow :=
  (nonCpuRowsOfMatch s r.match_id).find? (fun mp => mp.player != pid && !mp.is_cpu)

/-- The opponent id that one iteration of the `uniqueTop10Opponents`
loop adds for row `r`, if any: the match must exist and have exactly two
non-CPU participants, the found opponent must be in `top10`, and must
not be the player. -/
def stepElem (s : Snapshot) (top10 : List Nat) (pid : Nat) (r : ParticipantRow) : Option Nat :=
  if matchExistsB s r.match_id && nonCpuCount s r.match_id == 2 then
    match oppOf s pid r with
    | some o => if top10.contains o.player && o.player != pid then some o.player else none
    | none => none
  else none

/-- `uniqueTop10Opponents`: the set built by the loop over all of the
player's rows. -/
def uniqueTop10Opponents (s : Snapshot) (pid : Nat) : Finset Nat :=
  (playerRows s pid).foldl
    (fun acc r =>
      match stepElem s (top10PlayerIds s) pid r with
      | some q => insert q acc
      | none => acc) ∅

/-- `top10PlayersPlayed = uniqueTop10Opponents.size`. -/
def top10PlayersPlayed (s : Snapshot) (pid : Nat) : Nat :=
  (uniqueTop10Opponents s pid).card

/-- `isRanked = top10PlayersPlayed >= 3`. -/
def route_is_ranked (s : Snapshot) (pid : Nat) : Bool :=
  decide (3 ≤ top10PlayersPlayed s pid)

/-! ## Spec-side definitions for the qualification claims

These follow the claims' words (rating-based top-N over eligible
matches) and are compared against the code-side definitions above. -/

/-- Follows the spec's words (claims C1/C4): the top-N candidate set is
the first 10 players in rating-descending order, independent of
`is_ranked`. -/
def spec_topN (s : Snapshot) : List Nat :=
  ((playersSorted s).take 10).map (fun p => p.id)

/-- Player `q` has a non-CPU row in match `mid`. -/
def hasNonCpuRow (s : Snapshot) (q mid : Nat) : Bool :=
  s.participants.any (fun r => r.match_id == mid && r.player == q && !r.is_cpu)

/-- Follows the spec's words (claims C4/C5): the number of distinct
opponents of `pid` that lie in the rating-based top-N set, met across
eligible (non-archived, exactly-two-human) matches. -/
def spec_topn_count (s : Snapshot) (pid : Nat) : Nat :=
  (((s.players.map (fun p => p.id)).toFinset).filter
    (fun q => q ≠ pid ∧ q ∈ spec_topN s ∧
      (one_v_one_matches s).any
        (fun mid => hasNonCpuRow s pid mid && hasNonCpuRow s q mid) = true)).card

/-- The condition of the amended claims C4/C5: `q` is in the code's
top-10 list, differs from `pid`, and shares a match having exactly two
non-CPU participants with `pid` (archived or not). -/
def facedTop10 (s : Snapshot) (pid q : Nat) : Prop :=
  q ∈ top10PlayerIds s ∧ q ≠ pid ∧
    ∃ r ∈ s.participants, r.player = pid ∧ r.is_cpu = false ∧
      matchExistsB s r.match_id = true ∧ nonCpuCount s r.match_id = 2 ∧
      ∃ y ∈ s.participants, y.match_id = r.match_id ∧ y.is_cpu = false ∧ y.player = q

instance (s : Snapshot) (pid q : Nat) : Decidable (facedTop10 s pid q) := by
  unfold facedTop10
  infer_instance

/-- The set described by the amended claims C4/C5. -/
def describedOpponents (s : Snapshot) (pid : Nat) : Finset Nat :=
  ((s.participants.map (fun r => r.player)).toFinset).filter (facedTop10 s pid)

/-! ## Snapshot transformations used to express claim C3 -/

/-- Keep only the participant rows of eligible matches. -/
def restrictElig (s : Snapshot) : Snapshot :=
  { s with participants :=
      s.participants.filter (fun p => (one_v_one_matches s).contains p.match_id) }

/-- Clear the archived flag of every match (the in-memory implementation
never reads it). -/
def clearArchived (s : Snapshot) : Snapshot :=
  { s with matchRows := s.matchRows.map (fun m => { m with archived := false }) }

/-! ## Result assembly of the SQL implementation (claim C8)

The final `SELECT` joins the per-player aggregates and ends with
`ORDER BY p.elo DESC` — no further tie-break, so SQL fixes the result
only up to reordering of equal-`elo` players. -/

/-- One output record of the SQL players endpoint. -/
structure OutRec where
  id : Nat
  elo : Int
  main_character : Option String
  total_wins : Nat
  total_losses : Nat
  total_kos : Int
  total_falls : Int
  total_sds : Int
  current_win_streak : Nat
  is_ranked : Bool
  top_ten_played : Nat
  deriving DecidableEq, Repr

/-- The record the final `SELECT` produces for player `p` (`is_ranked`
is `CASE WHEN p.top_ten_played >= 3 THEN true ELSE false END`). -/
def mkRec (s : Snapshot) (p : Player) : OutRec :=
  { id := p.id
    elo := p.elo
    main_character := main_character_sql s p.id
    total_wins := total_wins_sql s p.id
    total_losses := total_losses_sql s p.id
    total_kos := total_kos_sql s p.id
    total_falls := total_falls_sql s p.id
    total_sds := total_sds_sql s p.id
    current_win_streak := win_streak_sql s p.id
    is_ranked := decide (3 ≤ p.top_ten_played)
    top_ten_played := p.top_ten_played }

/-- The contract of the SQL players endpoint: a list is a possible
response iff it contains exactly one record per player and is ordered
by `elo` descending (`ORDER BY p.elo DESC` fixes nothing more). -/
def validOutput (s : Snapshot) (l : List OutRec) : Prop :=
  l.Perm (s.players.map (mkRec s)) ∧ l.Pairwise (fun a b => b.elo ≤ a.elo)

/-! ## The matches listing endpoint (`part_001`)

`GET /api/matches` with `page`, `limit`, repeated `player` and
`character` query parameters and `only1v1`.  All filtering happens at
the database level: `archived = false` always, every requested player
must have a non-CPU row, every requested character must appear, and
under `only1v1` the match must have exactly two non-CPU participants
(resolved through a raw-SQL id list with an early empty return).
Results are ordered by `created_at` descending and paginated with
`skip = (page-1)*limit`, `take = limit`. -/

/-- Some participant row of match `mid` uses character `c` (the
character filter has no `is_cpu` condition). -/
def hasCharacterRow (s : Snapshot) (mid : Nat) (c : String) : Bool :=
  s.participants.any (fun r => r.match_id == mid && r.smash_character == c)

/-- The combined `where` condition of the final `findMany`. -/
def matchPasses (s : Snapshot) (playerF : List Nat) (charF : List String)
    (only1v1 : Bool) (m : MatchRow) : Bool :=
  !m.archived &&
    charF.all (fun c => hasCharacterRow s m.id c) &&
    playerF.all (fun pid => hasNonCpuRow s pid m.id) &&
    (!only1v1 || nonCpuCount s m.id == 2)

/-- The raw-SQL id list computed under `only1v1` (with the player
conditions folded in); the handler returns early when it is empty. -/
def oneVOneIds (s : Snapshot) (playerF : List Nat) : List Nat :=
  (s.matchRows.filter (fun m =>
    !m.archived && nonCpuCount s m.id == 2 &&
      playerF.all (fun pid => hasNonCpuRow s pid m.id))).map (fun m => m.id)

/-- The matches of the response (before pagination), ordered by
`created_at` descending. -/
def filteredSortedMatches (s : Snapshot) (playerF : List Nat) (charF : List String)
    (only1v1 : Bool) : List MatchRow :=
  sortLe (fun a b => decide (b.createdAt ≤ a.createdAt))
    (s.matchRows.filter (fun m => matchPasses s playerF charF only1v1 m))

/-- The response of the matches endpoint: the returned matches and the
`pagination.hasMore` flag. -/
def matchesResponse (s : Snapshot) (page limit : Nat) (playerF : List Nat)
    (charF : List String) (only1v1 : Bool) : List MatchRow × Bool :=
  if only1v1 && (oneVOneIds s playerF).isEmpty then
    ([], false)
  else
    let l := ((filteredSortedMatches s playerF charF only1v1).drop ((page - 1) * limit)).take limit
    if l.isEmpty then ([], false) else (l, limit == l.length)

/-! ## The cache revalidation endpoint (`src/app/api/revalidate/route.ts`) -/

/-- The whitelisted cache tags. -/
def VALID_TAGS : List String := ["players", "matches"]

/-- `isValidTag`. -/
def isValidTag (t : String) : Bool := VALID_TAGS.contains t

/-- Outcome of a revalidation request: HTTP status, the tags actually
passed to `revalidateTag`, and the `revalidated` field of the body. -/
structure RevalResult where
  status : Nat
  revalidated : List String
  ok : Bool
  deriving DecidableEq, Repr

/-- The POST handler, applied to the `tags` field of the parsed JSON
body (`none` models a missing or non-array field). -/
def revalidatePOST (tagsField : Option (List String)) : RevalResult :=
  match tagsField with
  | none => ⟨400, [], false⟩
  | some tags =>
    if tags.isEmpty then ⟨400, [], false⟩
    else if !(tags.filter (fun t => !isValidTag t)).isEmpty then ⟨400, [], false⟩
    else ⟨200, tags, true⟩

/-- The tag list of a POST body (empty when the `tags` field is missing
or not an array). -/
def postTags (tagsField : Option (List String)) : List String :=
  tagsField.getD []

/-- The tag list the GET handler derives from the `tags` query
parameter. -/
def getTags (tagsParam : Option String) : List String :=
  match tagsParam with
  | none => []
  | some str => if str == "" then [] else (str.splitOn ",").map (fun t => t.trim)

/-- The GET handler, applied to the raw `tags` query parameter (`none`
models an absent parameter; the empty string is falsy in JavaScript, so
both take the no-tags branch). -/
def revalidateGET (tagsParam : Option String) : RevalResult :=
  match tagsParam with
  | none => ⟨400, [], false⟩
  | some str =>
    if str == "" then ⟨400, [], false⟩
    else
      let tags := (str.splitOn ",").map (fun t => t.trim)
      if tags.isEmpty then ⟨400, [], false⟩
      else if !(tags.filter (fun t => !isValidTag t)).isEmpty then ⟨400, [], false⟩
      else ⟨200, tags, true⟩

/-! ## Concrete snapshots used as witnesses and counterexamples -/

/-- The empty snapshot. -/
def exEmpty : Snapshot := ⟨[], [], []⟩

/-- One player, not stored-ranked, no matches. -/
def exC1 : Snapshot := ⟨[⟨1, 1200, false, 0⟩], [], []⟩

/-- Two players; match 1 is newer (created 10) than match 2 (created 5)
although its id is smaller.  Player 1 wins match 1 and loses match 2. -/
def exC2 : Snapshot :=
  ⟨[⟨1, 1200, false, 0⟩, ⟨2, 1200, false, 0⟩],
    [⟨1, 10, false⟩, ⟨2, 5, false⟩],
    [⟨1, 1, 1, "MARIO", false, 0, 0, 0, true⟩,
      ⟨2, 1, 2, "LINK", false, 0, 0, 0, false⟩,
      ⟨3, 2, 1, "MARIO", false, 0, 0, 0, false⟩,
      ⟨4, 2, 2, "LINK", false, 0, 0, 0, true⟩]⟩

/-- Two players and a single ARCHIVED two-human match won by player 1. -/
def exC3 : Snapshot :=
  ⟨[⟨1, 1200, false, 0⟩, ⟨2, 1200, false, 0⟩],
    [⟨1, 1, true⟩],
    [⟨1, 1, 1, "MARIO", false, 0, 0, 0, true⟩,
      ⟨2, 1, 2, "LINK", false, 0, 0, 0, false⟩]⟩

/-- Four players, none stored-ranked; player 1 beat the three others in
three eligible 1v1 matches. -/
def exC4 : Snapshot :=
  ⟨[⟨1, 1500, false, 0⟩, ⟨2, 1400, false, 0⟩, ⟨3, 1300, false, 0⟩, ⟨4, 1250, false, 0⟩],
    [⟨1, 1, false⟩, ⟨2, 2, false⟩, ⟨3, 3, false⟩],
    [⟨1, 1, 1, "MARIO", false, 0, 0, 0, true⟩,
      ⟨2, 1, 2, "LINK", false, 0, 0, 0, false⟩,
      ⟨3, 2, 1, "MARIO", false, 0, 0, 0, true⟩,
      ⟨4, 2, 3, "FOX", false, 0, 0, 0, false⟩,
      ⟨5, 3, 1, "MARIO", false, 0, 0, 0, true⟩,
      ⟨6, 3, 4, "KIRBY", false, 0, 0, 0, false⟩]⟩

/-- Player 2 is stored-ranked with top rating; the only match between
players 1 and 2 is archived. -/
def exC5 : Snapshot :=
  ⟨[⟨1, 1200, false, 0⟩, ⟨2, 1500, true, 5⟩],
    [⟨1, 1, true⟩],
    [⟨1, 1, 1, "MARIO", false, 0, 0, 0, false⟩,
      ⟨2, 1, 2, "LINK", false, 0, 0, 0, true⟩]⟩

/-- Player 1 uses MARIO in the two eligible matches (ids 1, 2) and ZELDA
in three archived matches (ids 3, 4, 5). -/
def exC6 : Snapshot :=
  ⟨[⟨1, 1200, false, 0⟩, ⟨2, 1200, false, 0⟩],
    [⟨1, 1, false⟩, ⟨2, 2, false⟩, ⟨3, 3, true⟩, ⟨4, 4, true⟩, ⟨5, 5, true⟩],
    [⟨1, 1, 1, "MARIO", false, 0, 0, 0, true⟩,
      ⟨2, 1, 2, "LINK", false, 0, 0, 0, false⟩,
      ⟨3, 2, 1, "MARIO", false, 0, 0, 0, true⟩,
      ⟨4, 2, 2, "LINK", false, 0, 0, 0, false⟩,
      ⟨5, 3, 1, "ZELDA", false, 0, 0, 0, true⟩,
      ⟨6, 3, 2, "LINK", false, 0, 0, 0, false⟩,
      ⟨7, 4, 1, "ZELDA", false, 0, 0, 0, true⟩,
      ⟨8, 4, 2, "LINK", false, 0, 0, 0, false⟩,
      ⟨9, 5, 1, "ZELDA", false, 0, 0, 0, true⟩,
      ⟨10, 5, 2, "LINK", false, 0, 0, 0, false⟩]⟩

/-- Two players with the same rating and no matches. -/
def exC8 : Snapshot := ⟨[⟨1, 1200, false, 0⟩, ⟨2, 1200, false, 0⟩], [], []⟩

/-- The SQL output for `exC8` in input order. -/
def exC8_out1 : List OutRec := exC8.players.map (mkRec exC8)

/-- The SQL output for `exC8` in the opposite order. -/
def exC8_out2 : List OutRec := (exC8.players.map (mkRec exC8)).reverse

/-- One non-archived match, no participants. -/
def exC9 : Snapshot := ⟨[], [⟨1, 0, false⟩], []⟩

/-! ## Helper lemmas about the stable insertion sort -/

theorem perm_insertLe {α : Type} (le : α → α → Bool) (a : α) (l : List α) :
    (insertLe le a l).Perm (a :: l) := by
  induction l with
  | nil => simp [insertLe]
  | cons b t ih =>
    simp only [insertLe]
    by_cases h : le a b
    · simp [h]
    · simp only [h, if_neg, Bool.false_eq_true, not_false_iff, ite_false]
      exact (ih.cons b).trans (List.Perm.swap a b t)

theorem perm_sortLe {α : Type} (le : α → α → Bool) (l : List α) :
    (sortLe le l).Perm l := by
  induction l with
  | nil => simp [sortLe]
  | cons a t ih => exact (perm_insertLe le a (sortLe le t)).trans (ih.cons a)

theorem mem_sortLe {α : Type} (le : α → α → Bool) (a : α) (l : List α) :
    a ∈ sortLe le l ↔ a ∈ l :=
  (perm_sortLe le l).mem_iff

/-! ## Helper lemmas about the win-streak computations -/

/-- The count-wins-before-first-loss shape of the SQL `win_streaks` CTE
equals the longest all-wins prefix. -/
theorem streakOf_eq_takeWhile (l : List ParticipantRow) :
    (match firstLossIdx l with
      | some i => ((l.take i).filter (fun r => r.has_won)).length
      | none => (l.filter (fun r => r.has_won)).length)
    = (l.takeWhile (fun r => r.has_won)).length := by
  induction l with
  | nil => simp [firstLossIdx]
  | cons r t ih =>
    by_cases h : r.has_won
    · cases hfl : firstLossIdx t with
      | none =>
        rw [hfl] at ih
        simp only [firstLossIdx, h, if_true, hfl, Option.map_none']
        simp [List.filter_cons, List.takeWhile_cons, h]
        exact ih
      | some i =>
        rw [hfl] at ih
        simp only [firstLossIdx, h, if_true, hfl, Option.map_some']
        simp [List.take_succ_cons, List.filter_cons, List.takeWhile_cons, h]
        exact ih
    · simp [firstLossIdx, h, List.takeWhile_cons]

/-- The in-memory streak loop also computes the longest all-wins
prefix (of its own row ordering). -/
theorem countStreak_eq_takeWhile (l : List ParticipantRow) :
    countStreak l = (l.takeWhile (fun r => r.has_won)).length := by
  induction l with
  | nil => simp [countStreak]
  | cons r t ih =>
    by_cases h : r.has_won
    · simp [countStreak, h, List.takeWhile_cons, ih]
    · simp [countStreak, h, List.takeWhile_cons]

/-! ## Helper lemmas about the main-character selection -/

theorem betterChar_irrefl (f : String → Nat) (c : String) : betterChar f c c = false := by
  simp [betterChar]

theorem betterChar_true_iff (f : String → Nat) (c b : String) :
    betterChar f c b = true ↔ (f b < f c ∨ (f c = f b ∧ c < b)) := by
  simp [betterChar]

theorem betterChar_false_iff (f : String → Nat) (d c : String) :
    betterChar f d c = false ↔ (f d ≤ f c ∧ (f d = f c → c ≤ d)) := by
  rw [← Bool.not_eq_true, betterChar_true_iff]
  constructor
  · intro h
    push_neg at h
    exact h
  · intro h
    push_neg
    exact h

theorem betterChar_total (f : String → Nat) (a b : String) :
    a = b ∨ betterChar f a b = true ∨ betterChar f b a = true := by
  rcases Nat.lt_trichotomy (f a) (f b) with h | h | h
  · right; right; rw [betterChar_true_iff]; exact Or.inl h
  · rcases lt_trichotomy a b with hs | hs | hs
    · right; left; rw [betterChar_true_iff]; exact Or.inr ⟨h, hs⟩
    · left; exact hs
    · right; right; rw [betterChar_true_iff]; exact Or.inr ⟨h.symm, hs⟩
  · right; left; rw [betterChar_true_iff]; exact Or.inl h

theorem betterChar_trans (f : String → Nat) {a b c : String}
    (h1 : betterChar f a b = true) (h2 : betterChar f b c = true) :
    betterChar f a c = true := by
  rw [betterChar_true_iff] at h1 h2 ⊢
  rcases h1 with h1 | ⟨h1e, h1s⟩ <;> rcases h2 with h2 | ⟨h2e, h2s⟩
  · exact Or.inl (by omega)
  · exact Or.inl (by omega)
  · exact Or.inl (by omega)
  · exact Or.inr ⟨by omega, lt_trans h1s h2s⟩

theorem pickBest_go (f : String → Nat) (l : List String) (b : String) :
    ∃ c, List.foldl (fun acc x => match acc with
        | none => some x
        | some y => if betterChar f x y then some x else some y) (some b) l = some c ∧
      (c = b ∨ c ∈ l) ∧ betterChar f b c = false ∧ ∀ d ∈ l, betterChar f d c = false := by
  induction l generalizing b with
  | nil => exact ⟨b, rfl, Or.inl rfl, betterChar_irrefl f b, by simp⟩
  | cons x t ih =>
    simp only [List.foldl_cons]
    by_cases hx : betterChar f x b = true
    · obtain ⟨c, hc, hmem, hbc, hall⟩ := ih x
      refine ⟨c, by simpa [hx] using hc, ?_, ?_, ?_⟩
      · rcases hmem with rfl | h
        · exact Or.inr (List.mem_cons_self _ _)
        · exact Or.inr (List.mem_cons_of_mem _ h)
      · by_contra hb
        rw [Bool.not_eq_false] at hb
        exact absurd (betterChar_trans f hx hb) (by simp [hbc])
      · intro d hd
        rcases List.mem_cons.mp hd with rfl | hd
        · exact hbc
        · exact hall d hd
    · obtain ⟨c, hc, hmem, hbc, hall⟩ := ih b
      refine ⟨c, by simpa [hx] using hc, ?_, hbc, ?_⟩
      · rcases hmem with rfl | h
        · exact Or.inl rfl
        · exact Or.inr (List.mem_cons_of_mem _ h)
      · intro d hd
        rcases List.mem_cons.mp hd with rfl | hd
        · by_contra hdc
          rw [Bool.not_eq_false] at hdc
          rcases betterChar_total f d b with rfl | hdb | hbd
          · exact absurd hdc (by simp [hbc])
          · exact absurd hdb hx
          · exact absurd (betterChar_trans f hbd hdc) (by simp [hbc])
        · exact hall d hd

/-- Characterization of `pickBest`: on a nonempty list it returns an
element of maximal count, lexicographically smallest among the
maximal ones. -/
theorem pickBest_spec (f : String → Nat) (l : List String) (hl : l ≠ []) :
    ∃ c, pickBest f l = some c ∧ c ∈ l ∧ ∀ d ∈ l, f d ≤ f c ∧ (f d = f c → c ≤ d) := by
  cases l with
  | nil => exact absurd rfl hl
  | cons x t =>
    obtain ⟨c, hc, hmem, hbc, hall⟩ := pickBest_go f t x
    refine ⟨c, by simpa [pickBest] using hc, ?_, ?_⟩
    · rcases hmem with rfl | h
      · exact List.mem_cons_self _ _
      · exact List.mem_cons_of_mem _ h
    · intro d hd
      rcases List.mem_cons.mp hd with rfl | hd
      · exact (betterChar_false_iff f d c).mp hbc
      · exact (betterChar_false_iff f d c).mp (hall d hd)

/-! ## Helper lemmas about the unique-opponents set -/

theorem mem_fold_insert (s : Snapshot) (T : List Nat) (pid : Nat) (l : List ParticipantRow)
    (A : Finset Nat) (q : Nat) :
    q ∈ l.foldl (fun acc r => match stepElem s T pid r with
        | some x => insert x acc
        | none => acc) A ↔
      q ∈ A ∨ ∃ r ∈ l, stepElem s T pid r = some q := by
  induction l generalizing A with
  | nil => simp
  | cons r t ih =>
    simp only [List.foldl_cons]
    cases h : stepElem s T pid r with
    | none =>
      rw [ih]
      simp only [List.mem_cons, h]
      constructor
      · rintro (hA | ⟨x, hx, hs⟩)
        · exact Or.inl hA
        · exact Or.inr ⟨x, Or.inr hx, hs⟩
      · rintro (hA | ⟨x, rfl | hx, hs⟩)
        · exact Or.inl hA
        · exact absurd hs (by simp [h])
        · exact Or.inr ⟨x, hx, hs⟩
    | some x =>
      rw [ih]
      simp only [Finset.mem_insert, List.mem_cons, h]
      constructor
      · rintro ((rfl | hA) | ⟨z, hz, hs⟩)
        · exact Or.inr ⟨r, Or.inl rfl, h⟩
        · exact Or.inl hA
        · exact Or.inr ⟨z, Or.inr hz, hs⟩
      · rintro (hA | ⟨z, rfl | hz, hs⟩)
        · exact Or.inl (Or.inr hA)
        · rw [hs] at h
          exact Or.inl (Or.inl (Option.some.inj h))
        · exact Or.inr ⟨z, hz, hs⟩

/-- When the match of a row of the player has exactly two non-CPU rows,
`oppOf` returns exactly the row of the other participant (if the second
row also belongs to the player, there is no opponent). -/
theorem oppOf_eq (s : Snapshot) (pid : Nat) (r : ParticipantRow)
    (hmem : r ∈ s.participants) (hp : r.player = pid) (hcpu : r.is_cpu = false)
    {a b : ParticipantRow} (hab : nonCpuRowsOfMatch s r.match_id = [a, b]) :
    (a.player ≠ pid ∧ oppOf s pid r = some a) ∨
      (a.player = pid ∧ b.player ≠ pid ∧ oppOf s pid r = some b) ∨
      (a.player = pid ∧ b.player = pid ∧ oppOf s pid r = none) := by
  have hsub : ∀ z, z ∈ nonCpuRowsOfMatch s r.match_id → z.is_cpu = false := by
    intro z hz
    have h2 := (List.mem_filter.mp hz).2
    simp only [Bool.and_eq_true, beq_iff_eq, Bool.not_eq_true'] at h2
    exact h2.2
  have hacpu : a.is_cpu = false := hsub a (by rw [hab]; exact List.mem_cons_self _ _)
  have hbcpu : b.is_cpu = false :=
    hsub b (by rw [hab]; exact List.mem_cons_of_mem _ (List.mem_cons_self _ _))
  by_cases hap : a.player = pid
  · by_cases hbp : b.player = pid
    · refine Or.inr (Or.inr ⟨hap, hbp, ?_⟩)
      unfold oppOf
      rw [hab, List.find?_cons_of_neg _ (by simp [hap]),
        List.find?_cons_of_neg _ (by simp [hbp])]
      rfl
    · refine Or.inr (Or.inl ⟨hap, hbp, ?_⟩)
      unfold oppOf
      rw [hab, List.find?_cons_of_neg _ (by simp [hap]),
        List.find?_cons_of_pos _ (by simp [hbp, hbcpu])]
  · refine Or.inl ⟨hap, ?_⟩
    unfold oppOf
    rw [hab, List.find?_cons_of_pos _ (by simp [hap, hacpu])]

theorem stepElem_some_iff (s : Snapshot) (T : List Nat) (pid q : Nat) (r : ParticipantRow)
    (hmem : r ∈ s.participants) (hp : r.player = pid) (hcpu : r.is_cpu = false) :
    stepElem s T pid r = some q ↔
      matchExistsB s r.match_id = true ∧ nonCpuCount s r.match_id = 2 ∧
        T.contains q = true ∧ q ≠ pid ∧
        ∃ y ∈ s.participants, y.match_id = r.match_id ∧ y.is_cpu = false ∧ y.player = q := by
  unfold stepElem
  by_cases hg : (matchExistsB s r.match_id && nonCpuCount s r.match_id == 2) = true
  case neg =>
    rw [if_neg hg]
    simp only [Bool.and_eq_true, beq_iff_eq] at hg
    constructor
    · intro h
      exact absurd h (by simp)
    · rintro ⟨h1, h2, -⟩
      exact absurd ⟨h1, h2⟩ hg
  case pos =>
    have hgp := hg
    simp only [Bool.and_eq_true, beq_iff_eq] at hgp
    obtain ⟨hex, hcnt⟩ := hgp
    rw [if_pos hg]
    have hr2 : r ∈ nonCpuRowsOfMatch s r.match_id := by
      simp [nonCpuRowsOfMatch, List.mem_filter, hmem, hcpu]
    have hlen : (nonCpuRowsOfMatch s r.match_id).length = 2 := hcnt
    obtain ⟨a, b, hab⟩ := List.length_eq_two.mp hlen
    have hsub : ∀ z, z ∈ nonCpuRowsOfMatch s r.match_id →
        z ∈ s.participants ∧ z.match_id = r.match_id ∧ z.is_cpu = false := by
      intro z hz
      have hzz := List.mem_filter.mp hz
      have h2 := hzz.2
      simp only [Bool.and_eq_true, beq_iff_eq, Bool.not_eq_true'] at h2
      exact ⟨hzz.1, h2.1, h2.2⟩
    have hmemback : ∀ y, y ∈ s.participants → y.match_id = r.match_id → y.is_cpu = false →
        y ∈ ([a, b] : List ParticipantRow) := by
      intro y hy hym hyc
      rw [← hab]
      simp [nonCpuRowsOfMatch, List.mem_filter, hy, hym, hyc]
    have ha := hsub a (by rw [hab]; exact List.mem_cons_self _ _)
    have hb := hsub b (by rw [hab]; exact List.mem_cons_of_mem _ (List.mem_cons_self _ _))
    have hr2' : r = a ∨ r = b := by
      rw [hab] at hr2
      rcases List.mem_cons.mp hr2 with h | h
      · exact Or.inl h
      · rcases List.mem_cons.mp h with h | h
        · exact Or.inr h
        · simp at h
    rcases oppOf_eq s pid r hmem hp hcpu hab with ⟨hap, hopp⟩ | ⟨hap, hbp, hopp⟩ | ⟨hap, hbp, hopp⟩
    · -- the opponent is `a`; the player's own row must be `b`
      have hrb : b.player = pid := by
        rcases hr2' with rfl | rfl
        · exact absurd hp hap
        · exact hp
      rw [hopp]
      dsimp only
      constructor
      · intro h
        by_cases hc : (T.contains a.player && a.player != pid) = true
        · rw [if_pos hc] at h
          have hq : q = a.player := (Option.some.inj h).symm
          simp only [Bool.and_eq_true, bne_iff_ne] at hc
          subst hq
          exact ⟨hex, hcnt, hc.1, hc.2, a, ha.1, ha.2.1, ha.2.2, rfl⟩
        · rw [if_neg hc] at h
          exact absurd h (by simp)
      · rintro ⟨-, -, hcont, hne, y, hy, hym, hyc, hyp⟩
        have hya : y = a := by
          rcases List.mem_cons.mp (hmemback y hy hym hyc) with h | h
          · exact h
          · rcases List.mem_cons.mp h with rfl | h
            · exact absurd (hyp.symm.trans hrb) hne
            · simp at h
        subst hya
        have hcq : q ∈ T := by simpa using hcont
        rw [if_pos (by simp [hyp, hcq, bne_iff_ne, hne])]
        rw [hyp]
    · -- the opponent is `b`
      rw [hopp]
      dsimp only
      constructor
      · intro h
        by_cases hc : (T.contains b.player && b.player != pid) = true
        · rw [if_pos hc] at h
          have hq : q = b.player := (Option.some.inj h).symm
          simp only [Bool.and_eq_true, bne_iff_ne] at hc
          subst hq
          exact ⟨hex, hcnt, hc.1, hc.2, b, hb.1, hb.2.1, hb.2.2, rfl⟩
        · rw [if_neg hc] at h
          exact absurd h (by simp)
      · rintro ⟨-, -, hcont, hne, y, hy, hym, hyc, hyp⟩
        have hyb : y = b := by
          rcases List.mem_cons.mp (hmemback y hy hym hyc) with rfl | h
          · exact absurd (hyp.symm.trans hap) hne
          · rcases List.mem_cons.mp h with rfl | h
            · rfl
            · simp at h
        subst hyb
        have hcq : q ∈ T := by simpa using hcont
        rw [if_pos (by simp [hyp, hcq, bne_iff_ne, hne])]
        rw [hyp]
    · -- both rows belong to the player: no opponent, and no witness row
      rw [hopp]
      dsimp only
      constructor
      · intro h
        exact absurd h (by simp)
      · rintro ⟨-, -, -, hne, y, hy, hym, hyc, hyp⟩
        rcases List.mem_cons.mp (hmemback y hy hym hyc) with rfl | h
        · exact absurd (hyp.symm.trans hap) hne
        · rcases List.mem_cons.mp h with rfl | h
          · exact absurd (hyp.symm.trans hbp) hne
          · simp at h

/-- Membership in the `uniqueTop10Opponents` set, characterized without
reference to the fold: `q` is collected iff `q` is a member of the
code's top-10 list, is not the player, and shares some match having
exactly two non-CPU participants with the player. -/
theorem mem_uniqueTop10_iff (s : Snapshot) (pid q : Nat) :
    q ∈ uniqueTop10Opponents s pid ↔
      (top10PlayerIds s).contains q = true ∧ q ≠ pid ∧
        ∃ r ∈ s.participants, r.player = pid ∧ r.is_cpu = false ∧
          matchExistsB s r.match_id = true ∧ nonCpuCount s r.match_id = 2 ∧
          ∃ y ∈ s.participants, y.match_id = r.match_id ∧ y.is_cpu = false ∧ y.player = q := by
  unfold uniqueTop10Opponents
  rw [mem_fold_insert]
  simp only [Finset.not_mem_empty, false_or]
  constructor
  · rintro ⟨r, hr, hstep⟩
    have hmem : r ∈ s.participants ∧ r.player = pid ∧ r.is_cpu = false := by
      have hf := (mem_sortLe _ _ _).mp hr
      have hf2 := List.mem_filter.mp hf
      have hp2 := hf2.2
      simp only [Bool.and_eq_true, beq_iff_eq, Bool.not_eq_true'] at hp2
      exact ⟨hf2.1, hp2.1, hp2.2⟩
    obtain ⟨h1, h2, h3⟩ := hmem
    rw [stepElem_some_iff s _ pid q r h1 h2 h3] at hstep
    obtain ⟨hex, hcnt, hcont, hne, y, hy⟩ := hstep
    exact ⟨hcont, hne, r, h1, h2, h3, hex, hcnt, y, hy⟩
  · rintro ⟨hcont, hne, r, h1, h2, h3, hex, hcnt, y, hy⟩
    refine ⟨r, ?_, ?_⟩
    · rw [playerRows, mem_sortLe]
      simp [List.mem_filter, h1, h2, h3]
    · rw [stepElem_some_iff s _ pid q r h1 h2 h3]
      exact ⟨hex, hcnt, hcont, hne, y, hy⟩

/-- The fold-built set coincides with the described set of distinct
top-10 opponents. -/
theorem uniqueTop10_eq_described (s : Snapshot) (pid : Nat) :
    uniqueTop10Opponents s pid = describedOpponents s pid := by
  ext q
  rw [mem_uniqueTop10_iff]
  unfold describedOpponents facedTop10
  rw [Finset.mem_filter]
  constructor
  · rintro ⟨hcont, hne, r, h1, h2, h3, hex, hcnt, y, hy, hym, hyc, hyp⟩
    refine ⟨?_, ?_, hne, r, h1, h2, h3, hex, hcnt, y, hy, hym, hyc, hyp⟩
    · rw [List.mem_toFinset]
      exact List.mem_map.mpr ⟨y, hy, hyp⟩
    · simpa using hcont
  · rintro ⟨-, hmem10, hne, r, h1, h2, h3, hex, hcnt, y, hy, hym, hyc, hyp⟩
    exact ⟨by simpa using hmem10, hne, r, h1, h2, h3, hex, hcnt, y, hy, hym, hyc, hyp⟩

/-! ## Invariance lemmas for claim C3 -/

theorem nonCpuCount_restrict (s : Snapshot) (mid : Nat) :
    nonCpuCount (restrictElig s) mid =
      if (one_v_one_matches s).contains mid then nonCpuCount s mid else 0 := by
  unfold nonCpuCount restrictElig
  simp only [List.filter_filter]
  by_cases hc : (one_v_one_matches s).contains mid
  · rw [if_pos hc]
    congr 1
    apply List.filter_congr
    intro x hx
    by_cases hxm : (x.match_id == mid) = true
    · have hx2 : x.match_id = mid := by simpa using hxm
      rw [hx2]
      have hcm : mid ∈ one_v_one_matches s := by simpa using hc
      simp [hcm]
    · simp only [Bool.not_eq_true] at hxm
      simp [hxm]
  · rw [if_neg hc]
    have : ∀ x ∈ s.participants,
        ((x.match_id == mid && !x.is_cpu) && (one_v_one_matches s).contains x.match_id)
          = false := by
      intro x hx
      by_cases hxm : (x.match_id == mid) = true
      · have hx2 : x.match_id = mid := by simpa using hxm
        rw [hx2]
        simp only [Bool.not_eq_true] at hc ⊢
        cases hcc : (one_v_one_matches s).contains mid
        · simp
        · exact absurd hcc (by simpa using hc)
      · simp only [Bool.not_eq_true] at hxm
        simp [hxm]
    rw [List.filter_congr this]
    simp

theorem one_v_one_restrict (s : Snapshot) :
    one_v_one_matches (restrictElig s) = one_v_one_matches s := by
  unfold one_v_one_matches
  have hmr : (restrictElig s).matchRows = s.matchRows := rfl
  rw [hmr]
  congr 1
  apply List.filter_congr
  intro m hm
  rw [nonCpuCount_restrict]
  by_cases ha : m.archived
  · simp [ha]
  · by_cases hc : (one_v_one_matches s).contains m.id
    · rw [if_pos hc]
    · rw [if_neg hc]
      have hne : nonCpuCount s m.id ≠ 2 := by
        intro h2
        apply hc
        have : m.id ∈ one_v_one_matches s := by
          unfold one_v_one_matches
          exact List.mem_map.mpr ⟨m, List.mem_filter.mpr ⟨hm, by simp [ha, h2]⟩, rfl⟩
        simpa using this
      simp [hne]

theorem eligRows_restrict (s : Snapshot) (pid : Nat) :
    eligRows (restrictElig s) pid = eligRows s pid := by
  unfold eligRows
  rw [one_v_one_restrict]
  show (s.participants.filter _).filter _ = _
  rw [List.filter_filter]
  apply List.filter_congr
  intro x hx
  by_cases hc : ((one_v_one_matches s).contains x.match_id) = true
  · simp [hc]
  · simp only [Bool.not_eq_true] at hc
    simp [hc]

theorem sortedEligRows_restrict (s : Snapshot) (pid : Nat) :
    sortedEligRows (restrictElig s) pid = sortedEligRows s pid := by
  unfold sortedEligRows
  rw [eligRows_restrict]
  have hre : recencyLe (restrictElig s) = recencyLe s := rfl
  rw [hre]

theorem matchExistsB_clear (s : Snapshot) (mid : Nat) :
    matchExistsB (clearArchived s) mid = matchExistsB s mid := by
  unfold matchExistsB clearArchived
  rw [List.find?_map]
  have hpred : ((fun m : MatchRow => m.id == mid) ∘ fun m : MatchRow =>
      { id := m.id, createdAt := m.createdAt, archived := false }) =
      fun m : MatchRow => m.id == mid := rfl
  rw [hpred]
  simp [Option.isSome_map]

theorem oneVOneRows_clear (s : Snapshot) (pid : Nat) :
    oneVOneRows (clearArchived s) pid = oneVOneRows s pid := by
  unfold oneVOneRows
  have hpr : playerRows (clearArchived s) pid = playerRows s pid := rfl
  rw [hpr]
  apply List.filter_congr
  intro x hx
  unfold is1v1Row
  rw [matchExistsB_clear]
  rfl

/-! ## Claim C1 -/

/-- C1, counterexample: the claim says the top-N candidate set is the
top 10 by rating independent of `is_ranked`, with size exactly
min(10, total player count).  With a single player whose stored
`is_ranked` flag is false, `top10PlayerIds` is empty although
min(10, 1) = 1, because the code filters by the stored `is_ranked`
flag before slicing. -/
theorem C1_counterexample :
    (top10PlayerIds exC1).length = 0 ∧ min 10 exC1.players.length = 1 := by
  constructor <;> decide

/-- C1, amended: the top-N candidate set consists of the first 10
players with stored `is_ranked = true` in the rating-descending player
order; its size is min(10, number of stored-ranked players), and every
member is a stored-ranked player. -/
theorem C1_amended_top10 (s : Snapshot) :
    (top10PlayerIds s).length = min 10 ((s.players.filter (fun p => p.is_ranked)).length) ∧
      ∀ pid ∈ top10PlayerIds s, ∃ p ∈ s.players, p.id = pid ∧ p.is_ranked = true := by
  constructor
  · unfold top10PlayerIds
    rw [List.length_map, List.length_take]
    congr 1
    exact (List.Perm.filter _ (perm_sortLe _ s.players)).length_eq
  · intro pid hpid
    unfold top10PlayerIds at hpid
    obtain ⟨p, hp, rfl⟩ := List.mem_map.mp hpid
    have hp2 := List.mem_of_mem_take hp
    have hp3 := List.mem_filter.mp hp2
    exact ⟨p, (mem_sortLe _ p s.players).mp hp3.1, rfl, hp3.2⟩

/-- C1, witness for the amended claim at a concrete snapshot with one
stored-ranked player. -/
theorem C1_amended_top10_witness :
    (2 ∈ top10PlayerIds exC5) ∧ ∃ p ∈ exC5.players, p.id = 2 ∧ p.is_ranked = true :=
  ⟨by decide, (C1_amended_top10 exC5).2 2 (by decide)⟩

/-! ## Claim C2 -/

/-- C2, counterexample: the claim orders rows by match creation time
descending (ties by id descending).  In `exC2` match 1 is the most
recent by creation time but has the smaller id; the in-memory
implementation (which iterates rows in match-id-descending order)
reports streak 0 although the claimed recency ordering yields streak
1. -/
theorem C2_counterexample :
    route_win_streak exC2 1 = 0 ∧ spec_win_streak exC2 1 = 1 := by
  constructor <;> decide

/-- C2, amended: the SQL implementation's win streak equals the longest
all-wins prefix of the player's eligible rows in creation-time/id
descending order (so zero streak for no eligible rows or a most-recent
loss); the in-memory implementation computes the longest all-wins
prefix of its own row ordering, which is by match id descending only
and does not exclude archived matches. -/
theorem C2_amended_win_streak (s : Snapshot) (pid : Nat) :
    win_streak_sql s pid = spec_win_streak s pid ∧
      route_win_streak s pid = ((oneVOneRows s pid).takeWhile (fun r => r.has_won)).length ∧
      (eligRows s pid = [] → win_streak_sql s pid = 0) ∧
      (∀ r l, sortedEligRows s pid = r :: l → r.has_won = false → win_streak_sql s pid = 0) := by
  have hmain : win_streak_sql s pid = spec_win_streak s pid := by
    unfold win_streak_sql spec_win_streak
    exact streakOf_eq_takeWhile (sortedEligRows s pid)
  refine ⟨hmain, countStreak_eq_takeWhile _, ?_, ?_⟩
  · intro h
    rw [hmain]
    unfold spec_win_streak sortedEligRows
    rw [h]
    rfl
  · intro r l hrl hw
    rw [hmain]
    unfold spec_win_streak
    rw [hrl]
    simp [List.takeWhile_cons, hw]

/-- C2, witness for the amended claim: the empty snapshot yields streak
0, and player 2 of `exC2`, whose most recent eligible row (in the
recency order) is a loss, has streak 0. -/
theorem C2_amended_win_streak_witness :
    (eligRows exEmpty 1 = [] ∧ win_streak_sql exEmpty 1 = 0) ∧
      (sortedEligRows exC2 2 =
          ⟨2, 1, 2, "LINK", false, 0, 0, 0, false⟩ ::
            [⟨4, 2, 2, "LINK", false, 0, 0, 0, true⟩] ∧
        win_streak_sql exC2 2 = 0) :=
  ⟨⟨by decide, (C2_amended_win_streak exEmpty 1).2.2.1 (by decide)⟩,
    ⟨by decide,
      (C2_amended_win_streak exC2 2).2.2.2 ⟨2, 1, 2, "LINK", false, 0, 0, 0, false⟩
        [⟨4, 2, 2, "LINK", false, 0, 0, 0, true⟩] (by decide) (by decide)⟩⟩

/-! ## Claim C3 -/

/-- C3, counterexample: in `exC3` the only match is archived yet the
in-memory implementation counts its win — an archived match contributes
to an aggregate, contradicting the claim. -/
theorem C3_counterexample :
    exC3.matchRows.all (fun m => m.archived) = true ∧ one_v_one_matches exC3 = [] ∧
      route_total_wins exC3 1 = 1 := by
  refine ⟨by decide, by decide, by decide⟩

/-- C3, amended: in the SQL implementation a match contributes to the
aggregates iff it is non-archived with exactly two non-CPU participants
(dropping all participant rows of ineligible matches leaves every SQL
aggregate unchanged); the in-memory implementation ignores the archived
flag entirely (clearing every archived flag leaves its aggregates
unchanged), and its main character is computed over all of the player's
non-CPU rows. -/
theorem C3_amended_eligibility (s : Snapshot) (pid : Nat) :
    one_v_one_matches (restrictElig s) = one_v_one_matches s ∧
      total_wins_sql (restrictElig s) pid = total_wins_sql s pid ∧
      total_losses_sql (restrictElig s) pid = total_losses_sql s pid ∧
      total_kos_sql (restrictElig s) pid = total_kos_sql s pid ∧
      total_falls_sql (restrictElig s) pid = total_falls_sql s pid ∧
      total_sds_sql (restrictElig s) pid = total_sds_sql s pid ∧
      main_character_sql (restrictElig s) pid = main_character_sql s pid ∧
      win_streak_sql (restrictElig s) pid = win_streak_sql s pid ∧
      route_total_wins (clearArchived s) pid = route_total_wins s pid ∧
      route_win_streak (clearArchived s) pid = route_win_streak s pid ∧
      route_main_character (clearArchived s) pid = route_main_character s pid := by
  refine ⟨one_v_one_restrict s, ?_, ?_, ?_, ?_, ?_, ?_, ?_, ?_, ?_, ?_⟩
  · unfold total_wins_sql
    rw [eligRows_restrict]
  · unfold total_losses_sql
    rw [eligRows_restrict]
  · unfold total_kos_sql
    rw [eligRows_restrict]
  · unfold total_falls_sql
    rw [eligRows_restrict]
  · unfold total_sds_sql
    rw [eligRows_restrict]
  · unfold main_character_sql
    rw [eligRows_restrict]
  · unfold win_streak_sql
    rw [sortedEligRows_restrict]
  · unfold route_total_wins
    rw [oneVOneRows_clear]
  · unfold route_win_streak
    rw [oneVOneRows_clear]
  · rfl

/-! ## Claim C4 -/

/-- C4, counterexample: player 1 of `exC4` has faced three distinct
opponents who all belong to the rating-based top-N set in eligible
matches, yet the code classifies the player as unranked because its
candidate set is filtered by the stored `is_ranked` flag (empty
here). -/
theorem C4_counterexample :
    route_is_ranked exC4 1 = false ∧ spec_topn_count exC4 1 = 3 := by
  constructor <;> decide

/-- C4, amended: the code's classification satisfies
`is_ranked = (count >= 3)` where the count is the number of distinct
players in the code's top-10 list (top 10 stored-ranked players by
rating) that the player shares a two-non-CPU-participant match with
(archived or not), excluding the player themself. -/
theorem C4_amended_is_ranked (s : Snapshot) (pid : Nat) :
    route_is_ranked s pid = true ↔ 3 ≤ (describedOpponents s pid).card := by
  unfold route_is_ranked top10PlayersPlayed
  rw [uniqueTop10_eq_described]
  simp

/-! ## Claim C5 -/

/-- C5, counterexample: the only match of `exC5` is archived (hence not
eligible), yet the code counts the stored-ranked opponent met there:
the opponent count is not taken over eligible matches. -/
theorem C5_counterexample :
    (uniqueTop10Opponents exC5 1).card = 1 ∧ one_v_one_matches exC5 = [] := by
  constructor <;> decide

/-- C5, amended: the collected opponent set is distinct by
construction, and `q` is counted for player `pid` iff `q` is in
the code's top-10 list, `q` is not `pid` itself, and some match with
exactly two non-CPU participants (archived or not) contains non-CPU
rows of both `pid` and `q`; repeated matches against `q` contribute
a single membership. -/
theorem C5_amended_unique_opponents (s : Snapshot) (pid q : Nat) :
    q ∈ uniqueTop10Opponents s pid ↔
      q ∈ top10PlayerIds s ∧ q ≠ pid ∧
        ∃ r ∈ s.participants, r.player = pid ∧ r.is_cpu = false ∧
          matchExistsB s r.match_id = true ∧ nonCpuCount s r.match_id = 2 ∧
          ∃ y ∈ s.participants, y.match_id = r.match_id ∧ y.is_cpu = false ∧ y.player = q := by
  rw [mem_uniqueTop10_iff]
  constructor
  · rintro ⟨hc, rest⟩
    exact ⟨by simpa using hc, rest⟩
  · rintro ⟨hc, rest⟩
    exact ⟨by simpa using hc, rest⟩

/-! ## Claim C6 -/

/-- C6, counterexample: player 1's eligible rows use MARIO twice and
ZELDA never, but the in-memory implementation computes the mode over
all of the player's rows — including three archived matches — and
reports ZELDA. -/
theorem C6_counterexample :
    route_main_character exC6 1 = some "ZELDA" ∧
      charCount (eligRows exC6 1) "ZELDA" = 0 ∧
      charCount (eligRows exC6 1) "MARIO" = 2 := by
  refine ⟨by decide, by decide, by decide⟩

/-- C6, amended: the SQL implementation's main character is, for every
player with at least one eligible row, a character of maximal
occurrence count among the player's eligible rows, lexicographically
smallest among the maximal ones; the in-memory implementation computes
the mode over all of the player's non-CPU rows (archived and non-1v1
included) with ties broken by first occurrence in match-id-descending
order instead. -/
theorem C6_amended_main_character (s : Snapshot) (pid : Nat)
    (h : eligRows s pid ≠ []) :
    ∃ c, main_character_sql s pid = some c ∧
      c ∈ (eligRows s pid).map (fun p => p.smash_character) ∧
      ∀ d ∈ (eligRows s pid).map (fun p => p.smash_character),
        charCount (eligRows s pid) d ≤ charCount (eligRows s pid) c ∧
          (charCount (eligRows s pid) d = charCount (eligRows s pid) c → c ≤ d) := by
  unfold main_character_sql
  apply pickBest_spec
  simp only [ne_eq, List.map_eq_nil_iff]
  exact h

/-- C6, witness for the amended claim at `exC6`. -/
theorem C6_amended_main_character_witness :
    eligRows exC6 1 ≠ [] ∧
      ∃ c, main_character_sql exC6 1 = some c ∧
        c ∈ (eligRows exC6 1).map (fun p => p.smash_character) ∧
        ∀ d ∈ (eligRows exC6 1).map (fun p => p.smash_character),
          charCount (eligRows exC6 1) d ≤ charCount (eligRows exC6 1) c ∧
            (charCount (eligRows exC6 1) d = charCount (eligRows exC6 1) c → c ≤ d) :=
  ⟨by decide, C6_amended_main_character exC6 1 (by decide)⟩

/-! ## Claim C7 -/

/-- C7, counterexample: player 1 of `exC3` has zero eligible rows (the
only match is archived), yet the in-memory implementation reports one
win and a MARIO main character instead of all-zero stats and a null
main character. -/
theorem C7_counterexample :
    eligRows exC3 1 = [] ∧ route_total_wins exC3 1 = 1 ∧
      route_main_character exC3 1 = some "MARIO" := by
  refine ⟨by decide, by decide, by decide⟩

/-- C7, amended: a player with zero eligible rows gets all-zero SQL
aggregates, a null main character and a zero streak (no error); the
same holds of the in-memory implementation — including a zero opponent
count and `is_ranked = false` — only for a player with no non-CPU
participant rows at all, since that implementation ignores the archived
flag and aggregates the main character over all rows. -/
theorem C7_amended_zero_rows (s : Snapshot) (pid : Nat) :
    (eligRows s pid = [] →
      total_wins_sql s pid = 0 ∧ total_losses_sql s pid = 0 ∧
        total_kos_sql s pid = 0 ∧ total_falls_sql s pid = 0 ∧ total_sds_sql s pid = 0 ∧
        main_character_sql s pid = none ∧ win_streak_sql s pid = 0) ∧
    (playerRows s pid = [] →
      route_total_wins s pid = 0 ∧ route_total_losses s pid = 0 ∧
        route_total_kos s pid = 0 ∧ route_total_falls s pid = 0 ∧ route_total_sds s pid = 0 ∧
        route_main_character s pid = none ∧ route_win_streak s pid = 0 ∧
        top10PlayersPlayed s pid = 0 ∧ route_is_ranked s pid = false) := by
  constructor
  · intro h
    refine ⟨?_, ?_, ?_, ?_, ?_, ?_, ?_⟩
    · simp [total_wins_sql, h]
    · simp [total_losses_sql, h]
    · simp [total_kos_sql, h]
    · simp [total_falls_sql, h]
    · simp [total_sds_sql, h]
    · simp [main_character_sql, h, pickBest]
    · simp [win_streak_sql, sortedEligRows, h, sortLe, firstLossIdx]
  · intro h
    refine ⟨?_, ?_, ?_, ?_, ?_, ?_, ?_, ?_, ?_⟩
    · simp [route_total_wins, oneVOneRows, h]
    · simp [route_total_losses, oneVOneRows, h]
    · simp [route_total_kos, oneVOneRows, h]
    · simp [route_total_falls, oneVOneRows, h]
    · simp [route_total_sds, oneVOneRows, h]
    · simp [route_main_character, h, firstOccChars]
    · simp [route_win_streak, oneVOneRows, h, countStreak]
    · simp [top10PlayersPlayed, uniqueTop10Opponents, h]
    · simp [route_is_ranked, top10PlayersPlayed, uniqueTop10Opponents, h]

/-- C7, witness for the amended claim at the empty snapshot. -/
theorem C7_amended_zero_rows_witness :
    (eligRows exEmpty 7 = [] ∧
      (total_wins_sql exEmpty 7 = 0 ∧ total_losses_sql exEmpty 7 = 0 ∧
        total_kos_sql exEmpty 7 = 0 ∧ total_falls_sql exEmpty 7 = 0 ∧
        total_sds_sql exEmpty 7 = 0 ∧
        main_character_sql exEmpty 7 = none ∧ win_streak_sql exEmpty 7 = 0)) ∧
    (playerRows exEmpty 7 = [] ∧
      (route_total_wins exEmpty 7 = 0 ∧ route_total_losses exEmpty 7 = 0 ∧
        route_total_kos exEmpty 7 = 0 ∧ route_total_falls exEmpty 7 = 0 ∧
        route_total_sds exEmpty 7 = 0 ∧
        route_main_character exEmpty 7 = none ∧ route_win_streak exEmpty 7 = 0 ∧
        top10PlayersPlayed exEmpty 7 = 0 ∧ route_is_ranked exEmpty 7 = false)) :=
  ⟨⟨by decide, (C7_amended_zero_rows exEmpty 7).1 (by decide)⟩,
    ⟨by decide, (C7_amended_zero_rows exEmpty 7).2 (by decide)⟩⟩

/-! ## Claim C8 -/

/-- C8, counterexample: `ORDER BY p.elo DESC` carries no tie-break, so
for a snapshot with two equal-rated players both orders of the two
records satisfy the query's output contract — the output ordering is
not determined by the data, contradicting byte-identical repeated
output. -/
theorem C8_counterexample :
    validOutput exC8 exC8_out1 ∧ validOutput exC8 exC8_out2 ∧ exC8_out1 ≠ exC8_out2 := by
  refine ⟨⟨List.Perm.refl _, by decide⟩, ⟨?_, by decide⟩, by decide⟩
  show exC8_out2.Perm (exC8.players.map (mkRec exC8))
  unfold exC8_out2
  exact List.reverse_perm _

/-- C8, amended: the aggregation is a pure function of the snapshot up
to the final ordering; any two valid outputs over the same snapshot are
permutations of each other (the per-player records are uniquely
determined) and each is sorted by rating descending, but the relative
order of equal-rated players is unspecified. -/
theorem C8_amended_output (s : Snapshot) (l1 l2 : List OutRec)
    (h1 : validOutput s l1) (h2 : validOutput s l2) :
    l1.Perm l2 ∧ l1.Pairwise (fun a b => b.elo ≤ a.elo) ∧
      l2.Pairwise (fun a b => b.elo ≤ a.elo) :=
  ⟨h1.1.trans h2.1.symm, h1.2, h2.2⟩

/-- C8, witness for the amended claim at `exC8`. -/
theorem C8_amended_output_witness :
    validOutput exC8 exC8_out1 ∧
      (exC8_out1.Perm exC8_out1 ∧ exC8_out1.Pairwise (fun a b => b.elo ≤ a.elo) ∧
        exC8_out1.Pairwise (fun a b => b.elo ≤ a.elo)) := by
  have hval : validOutput exC8 exC8_out1 := ⟨List.Perm.refl _, by decide⟩
  exact ⟨hval, C8_amended_output exC8 exC8_out1 exC8_out1 hval hval⟩

/-! ## Claim C9 -/

/-- C9, counterexample: a request with `limit = 0` returns zero matches
and `hasMore = false` through the empty-result early return, although
the claim (`hasMore` iff returned count equals `limit`) demands
`hasMore = true` there since 0 = limit. -/
theorem C9_counterexample :
    (matchesResponse exC9 1 0 [] [] false).1.length = 0 ∧
      (matchesResponse exC9 1 0 [] [] false).2 = false := by
  constructor <;> decide

/-- C9, amended: every returned match is non-archived; the returned
list is the `limit`-sized window of the filtered matches sorted by
creation time descending after skipping `(page-1)*limit`, hence at most
`limit` matches; and `hasMore` is true iff the response is nonempty and
its size equals `limit` (the all-pages-exhausted empty response reports
`hasMore = false` even when `limit = 0`). -/
theorem C9_amended_matches (s : Snapshot) (page limit : Nat) (playerF : List Nat)
    (charF : List String) (only1v1 : Bool) (hp : 1 ≤ page) :
    (∀ m ∈ (matchesResponse s page limit playerF charF only1v1).1, m.archived = false) ∧
      (matchesResponse s page limit playerF charF only1v1).1.length ≤ limit ∧
      (matchesResponse s page limit playerF charF only1v1).1 =
        ((filteredSortedMatches s playerF charF only1v1).drop ((page - 1) * limit)).take
          limit ∧
      ((matchesResponse s page limit playerF charF only1v1).2 = true ↔
        (matchesResponse s page limit playerF charF only1v1).1 ≠ [] ∧
          (matchesResponse s page limit playerF charF only1v1).1.length = limit) := by
  unfold matchesResponse
  by_cases he : (only1v1 && (oneVOneIds s playerF).isEmpty) = true
  · rw [if_pos he]
    simp only [Bool.and_eq_true] at he
    obtain ⟨ho1, hids⟩ := he
    have hearly : s.matchRows.filter (fun m => matchPasses s playerF charF only1v1 m) = [] := by
      rw [List.filter_eq_nil_iff]
      intro m hm hpass
      unfold matchPasses at hpass
      simp only [ho1, Bool.not_true, Bool.false_or, Bool.and_eq_true,
        Bool.not_eq_true'] at hpass
      have hmid : m.id ∈ oneVOneIds s playerF := by
        unfold oneVOneIds
        refine List.mem_map.mpr ⟨m, List.mem_filter.mpr ⟨hm, ?_⟩, rfl⟩
        simp only [Bool.and_eq_true, Bool.not_eq_true']
        exact ⟨⟨hpass.1.1.1, hpass.2⟩, hpass.1.2⟩
      rw [List.isEmpty_iff.mp hids] at hmid
      simp at hmid
    have hfs : filteredSortedMatches s playerF charF only1v1 = [] := by
      unfold filteredSortedMatches
      rw [hearly]
      rfl
    refine ⟨by simp, by simp, ?_, by simp⟩
    rw [hfs]
    simp
  · rw [if_neg he]
    by_cases hemp :
        ((((filteredSortedMatches s playerF charF only1v1).drop ((page - 1) * limit)).take
          limit).isEmpty) = true
    · rw [if_pos hemp]
      have hnil := List.isEmpty_iff.mp hemp
      refine ⟨by simp, by simp, hnil.symm, by simp⟩
    · rw [if_neg hemp]
      have hnil : (((filteredSortedMatches s playerF charF only1v1).drop
          ((page - 1) * limit)).take limit) ≠ [] := by
        intro hcon
        exact hemp (by rw [hcon]; rfl)
      refine ⟨?_, ?_, rfl, ?_⟩
      · intro m hm
        have hm2 := List.mem_of_mem_drop (List.mem_of_mem_take hm)
        have hm3 : m ∈ s.matchRows.filter
            (fun m => matchPasses s playerF charF only1v1 m) := by
          have := (perm_sortLe (fun a b => decide (b.createdAt ≤ a.createdAt))
            (s.matchRows.filter (fun m => matchPasses s playerF charF only1v1 m)))
          exact this.mem_iff.mp hm2
        have hpass := List.of_mem_filter hm3
        unfold matchPasses at hpass
        simp only [Bool.and_eq_true, Bool.not_eq_true'] at hpass
        exact hpass.1.1.1
      · rw [List.length_take]
        exact min_le_left _ _
      · dsimp only
        constructor
        · intro hbeq
          exact ⟨hnil, (beq_iff_eq.mp hbeq).symm⟩
        · rintro ⟨-, hlen⟩
          exact beq_iff_eq.mpr hlen.symm

/-- C9, witness for the amended claim at a concrete request. -/
theorem C9_amended_matches_witness :
    (1 : Nat) ≤ 1 ∧
      ((∀ m ∈ (matchesResponse exC9 1 20 [] [] false).1, m.archived = false) ∧
        (matchesResponse exC9 1 20 [] [] false).1.length ≤ 20 ∧
        (matchesResponse exC9 1 20 [] [] false).1 =
          ((filteredSortedMatches exC9 [] [] false).drop ((1 - 1) * 20)).take 20 ∧
        ((matchesResponse exC9 1 20 [] [] false).2 = true ↔
          (matchesResponse exC9 1 20 [] [] false).1 ≠ [] ∧
            (matchesResponse exC9 1 20 [] [] false).1.length = 20)) :=
  ⟨Nat.le_refl 1, C9_amended_matches exC9 1 20 [] [] false (Nat.le_refl 1)⟩

/-! ## Claim C10 -/

/-- C10: for both the POST and the GET revalidation handler, a missing,
empty or partially invalid tag list produces a 400 response with no tag
revalidated (the validation precedes the revalidation loop, so no
partial revalidation can occur), and an all-valid nonempty tag list
revalidates exactly the requested tags and responds with
`revalidated = true`. -/
theorem C10_revalidate_atomic :
    (∀ tagsField : Option (List String),
      ((postTags tagsField = [] ∨ ∃ t ∈ postTags tagsField, isValidTag t = false) →
        revalidatePOST tagsField = ⟨400, [], false⟩) ∧
      (postTags tagsField ≠ [] ∧ (∀ t ∈ postTags tagsField, isValidTag t = true) →
        revalidatePOST tagsField = ⟨200, postTags tagsField, true⟩)) ∧
    (∀ tagsParam : Option String,
      ((getTags tagsParam = [] ∨ ∃ t ∈ getTags tagsParam, isValidTag t = false) →
        revalidateGET tagsParam = ⟨400, [], false⟩) ∧
      (getTags tagsParam ≠ [] ∧ (∀ t ∈ getTags tagsParam, isValidTag t = true) →
        revalidateGET tagsParam = ⟨200, getTags tagsParam, true⟩)) := by
  constructor
  · intro tagsField
    cases tagsField with
    | none =>
      refine ⟨fun _ => rfl, ?_⟩
      rintro ⟨hne, -⟩
      exact absurd rfl hne
    | some tags =>
      have hpt : postTags (some tags) = tags := rfl
      rw [hpt]
      unfold revalidatePOST
      dsimp only
      constructor
      · rintro (hnil | ⟨t, ht, hinv⟩)
        · rw [if_pos (by simp [hnil])]
        · by_cases hemp : tags.isEmpty = true
          · rw [if_pos hemp]
          · rw [if_neg hemp]
            rw [if_pos ?_]
            have htf : t ∈ tags.filter (fun t => !isValidTag t) :=
              List.mem_filter.mpr ⟨ht, by simp [hinv]⟩
            have : (tags.filter (fun t => !isValidTag t)) ≠ [] :=
              List.ne_nil_of_mem htf
            simpa [List.isEmpty_iff] using this
      · rintro ⟨hne, hall⟩
        rw [if_neg (by simpa [List.isEmpty_iff] using hne)]
        rw [if_neg ?_]
        have hfil : tags.filter (fun t => !isValidTag t) = [] := by
          rw [List.filter_eq_nil_iff]
          intro t ht
          simp [hall t ht]
        simp [hfil]
  · intro tagsParam
    cases tagsParam with
    | none =>
      refine ⟨fun _ => rfl, ?_⟩
      rintro ⟨hne, -⟩
      exact absurd rfl hne
    | some str =>
      by_cases hstr : (str == "") = true
      · have hgt : getTags (some str) = [] := by
          unfold getTags
          dsimp only
          rw [if_pos hstr]
        rw [hgt]
        unfold revalidateGET
        dsimp only
        rw [if_pos hstr]
        refine ⟨fun _ => rfl, ?_⟩
        rintro ⟨hne, -⟩
        exact absurd rfl hne
      · have hgt : getTags (some str) = (str.splitOn ",").map (fun t => t.trim) := by
          unfold getTags
          dsimp only
          rw [if_neg hstr]
        rw [hgt]
        unfold revalidateGET
        dsimp only
        rw [if_neg hstr]
        constructor
        · rintro (hnil | ⟨t, ht, hinv⟩)
          · rw [if_pos (by simp [hnil])]
          · by_cases hemp : ((str.splitOn ",").map (fun t => t.trim)).isEmpty = true
            · rw [if_pos hemp]
            · rw [if_neg hemp]
              rw [if_pos ?_]
              have htf : t ∈ ((str.splitOn ",").map (fun t => t.trim)).filter
                  (fun t => !isValidTag t) :=
                List.mem_filter.mpr ⟨ht, by simp [hinv]⟩
              have : (((str.splitOn ",").map (fun t => t.trim)).filter
                  (fun t => !isValidTag t)) ≠ [] :=
                List.ne_nil_of_mem htf
              simpa [List.isEmpty_iff] using this
        · rintro ⟨hne, hall⟩
          rw [if_neg (by simpa [List.isEmpty_iff] using hne)]
          rw [if_neg ?_]
          have hfil : ((str.splitOn ",").map (fun t => t.trim)).filter
              (fun t => !isValidTag t) = [] := by
            rw [List.filter_eq_nil_iff]
            intro t ht
            simp [hall t ht]
          simp [hfil]

/-- C10, witness: an invalid POST tag yields 400 with nothing
revalidated, a fully valid POST list yields 200 with both tags
revalidated, and a GET without the parameter yields 400. -/
theorem C10_revalidate_atomic_witness :
    revalidatePOST (some ["bogus"]) = ⟨400, [], false⟩ ∧
      revalidatePOST (some ["players", "matches"]) = ⟨200, ["players", "matches"], true⟩ ∧
      revalidateGET none = ⟨400, [], false⟩ :=
  ⟨(C10_revalidate_atomic.1 (some ["bogus"])).1 (Or.inr ⟨"bogus", by decide, by decide⟩),
    (C10_revalidate_atomic.1 (some ["players", "matches"])).2 ⟨by decide, by decide⟩,
    (C10_revalidate_atomic.2 none).1 (Or.inl rfl)⟩

end Smash
